import Mathlib

/-!
Shallow embedding of a reliable-data-transfer protocol implemented over UDP
(source files udpClient.py and udpServer.py): the 8-byte wire-header codec,
the client handshake loop, the sliding-window sender state with its
fill-window / ack-processing / timeout-retransmission operations, the
adaptive timeout rule, and the server per-datagram handler with its
per-address connection table.

Bytes are modelled as natural numbers, Python ints as Nat or Int (Python
integers do not overflow), and Python floats carrying times and timeouts as
rationals.  Randomness (packet sizes, initial sequence numbers, drop draws)
and wall-clock readings are passed in as explicit oracle parameters.
Operations that can raise in Python return Except or Option.
-/

namespace UdpProto

/-- Embedding of build_header (identical in udpClient.py and udpServer.py):
struct.pack with format !BHHHB.  Byte 0 packs the packet type into the high
nibble and forces the reserved low nibble to 0x0F; sequence, ack and window
are two big-endian bytes each; length is one byte.  struct.pack raises for
out-of-range field values, so the bytes below are only meaningful under the
range constraints carried by the theorems. -/
def build_header (ptype seq ack window length : Nat) : List Nat :=
  [(ptype <<< 4) ||| 0x0F,
   seq / 256, seq % 256,
   ack / 256, ack % 256,
   window / 256, window % 256,
   length]

/-- Embedding of parse_header (identical in udpClient.py and udpServer.py):
struct.unpack of the first 8 bytes with format !BHHHB; the type is
recovered as the high nibble of byte 0 (shift right by 4), and the
multi-byte fields are recombined big-endian. -/
def parse_header (data : List Nat) : Nat × Nat × Nat × Nat × Nat :=
  (data.getD 0 0 >>> 4,
   data.getD 1 0 * 256 + data.getD 2 0,
   data.getD 3 0 * 256 + data.getD 4 0,
   data.getD 5 0 * 256 + data.getD 6 0,
   data.getD 7 0)

/-- struct.unpack with format !BHHHB raises struct.error exactly when fewer
than 8 bytes are supplied; this checked variant returns none in that case
and the parsed header otherwise. -/
def parse_header_checked (data : List Nat) : Option (Nat × Nat × Nat × Nat × Nat) :=
  if data.length < 8 then none else some (parse_header data)

/-- Recovering the type nibble: shifting the packed first byte right by four
bits undoes the shift-left-and-or with the reserved 0x0F nibble. -/
theorem nibble_roundtrip : ∀ t : Nat, t ≤ 15 → ((t <<< 4) ||| 15) >>> 4 = t := by
  decide

/-- C1: Header codec round-trip.  For every type in 0-15, sequence in
0-65535, ack in 0-65535, window in 0-65535 and length in 0-255, decoding
the 8-byte encoding returns exactly (type, sequence, ack, window, length);
decode recovers the type by shifting, independent of the reserved low
nibble that encode forces to all-ones. -/
theorem C1_header_roundtrip (ptype seq ack window length : Nat)
    (ht : ptype ≤ 15) (hs : seq ≤ 65535) (ha : ack ≤ 65535)
    (hw : window ≤ 65535) (hl : length ≤ 255) :
    parse_header (build_header ptype seq ack window length) =
      (ptype, seq, ack, window, length) := by
  simp only [parse_header, build_header, List.getD_cons_succ, List.getD_cons_zero]
  refine Prod.ext ?_ (Prod.ext ?_ (Prod.ext ?_ (Prod.ext ?_ ?_))) <;>
    simp only []
  · exact nibble_roundtrip ptype ht
  all_goals omega

/-- Witness for C1 at a concrete header. -/
theorem C1_header_roundtrip_witness :
    parse_header (build_header 3 513 65535 400 200) = (3, 513, 65535, 400, 200) :=
  C1_header_roundtrip 3 513 65535 400 200 (by decide) (by decide) (by decide)
    (by decide) (by decide)

/-! ## Client-side sender model (udpClient.py) -/

/-- Embedding of the test payload: the byte string TestData repeated 1000
times (8000 bytes). -/
def testData : List Nat :=
  List.flatten (List.replicate 1000 [84, 101, 115, 116, 68, 97, 116, 97])

theorem testData_length : testData.length = 8000 := by
  rw [testData, List.length_flatten, List.map_replicate, List.sum_replicate]
  norm_num

/-- Python slicing l[a:b] for the non-negative indices that arise here: the
elements at positions a, a+1, ..., b-1 (empty when b is at most a). -/
def pySlice (l : List Nat) (a b : Int) : List Nat :=
  (l.take b.toNat).drop a.toNat

/-- Embedding of calculate_data_range: start = seq * min_packet_size (40),
end = start + min(packet_size, len(data) - start), computed over Python
integers (so the second argument of min can be negative once start runs
past the 8000-byte payload). -/
def calculate_data_range (seq : Nat) (packet_size : Int) : Int × Int :=
  let start : Int := (seq : Int) * 40
  (start, start + min packet_size (8000 - start))

/-- Entry of the client send buffer (self.buffer[seq] in udpClient.py): the
raw packet bytes, the send timestamp, the acked flag, the payload byte
range and the retry counter. -/
structure PendingPacket where
  packet : List Nat
  send_time : ℚ
  acked : Bool
  start : Int
  end_ : Int
  retries : Nat
deriving DecidableEq

/-- Mutable state of UDPClient that the sender operations touch.  The
window size (400), packet size bounds (40/80) and payload length (8000) are
the fixed constants of the source.  The buffer dict is modelled as an
association list in insertion order, which is how Python iterates dict
keys. -/
structure SenderState where
  current_window_usage : Int
  base : Nat
  next_seq : Nat
  buffer : List (Nat × PendingPacket)
  target_packets : Nat
  rtt_list : List ℚ
  retransmit_count : Nat
  sent_count : Nat
  initial_sent : Nat
  timeout : ℚ
  timer_running : Bool
  timer_start : ℚ
deriving DecidableEq

/-- State of UDPClient after __init__ plus the base/next_seq reset performed
by a successful connect: empty buffer, zero window usage and counters, the
given timeout (0.3 s initially, possibly grown by handshake backoff). -/
def initialSenderState (target_packets : Nat) (timeout : ℚ) : SenderState :=
  { current_window_usage := 0
    base := 0
    next_seq := 0
    buffer := []
    target_packets := target_packets
    rtt_list := []
    retransmit_count := 0
    sent_count := 0
    initial_sent := 0
    timeout := timeout
    timer_running := false
    timer_start := 0 }

/-- Embedding of send_window_packets.  The while loop runs as long as
next_seq < target_packets and current_window_usage < 400; each iteration
draws a packet size (random.randint(40, 80), supplied by the oracle rand,
indexed by the sequence number it is drawn for), caps it by the remaining
window, slices the chunk out of the test data, appends a PendingPacket,
bumps the counters and usage, and starts the retransmission timer if it is
not already running.  Each iteration increments next_seq, so fuel equal to
target_packets - next_seq makes the recursion exhaust the loop. -/
def send_window_packets (fuel : Nat) (rand : Nat → Nat) (stime : Nat → ℚ)
    (s : SenderState) : SenderState :=
  match fuel with
  | 0 => s
  | fuel + 1 =>
    if s.next_seq < s.target_packets ∧ s.current_window_usage < 400 then
      let remaining_window : Int := 400 - s.current_window_usage
      let packet_size : Int := min (rand s.next_seq : Int) remaining_window
      let r := calculate_data_range s.next_seq packet_size
      let chunk := pySlice testData r.1 r.2
      let packet := build_header 3 s.next_seq 0 400 chunk.length ++ chunk
      let st := stime s.next_seq
      let s1 : SenderState :=
        { s with
          buffer := s.buffer ++
            [(s.next_seq,
              { packet := packet, send_time := st, acked := false,
                start := r.1, end_ := r.2, retries := 0 })]
          sent_count := s.sent_count + 1
          initial_sent := s.initial_sent + 1
          next_seq := s.next_seq + 1
          current_window_usage := s.current_window_usage + chunk.length }
      let s2 : SenderState :=
        if s1.timer_running = false ∧ s1.buffer ≠ [] then
          { s1 with timer_running := true, timer_start := st }
        else s1
      send_window_packets fuel rand stime s2
    else s

/-- Predicate selecting the buffer entries that an incoming cumulative ack
newly acknowledges: sequence below the ack number and not yet acked. -/
def newlyAcked (ack : Nat) (e : Nat × PendingPacket) : Bool :=
  decide (e.1 < ack) && !e.2.acked

/-- Embedding of the base-advancing while loop of receive_ack: while the
base key is present in the buffer and its entry is acked, delete the entry
and increment base.  Each productive iteration removes one entry, so fuel
equal to the buffer length exhausts the loop. -/
def advanceBase : Nat → Nat → List (Nat × PendingPacket) →
    Nat × List (Nat × PendingPacket)
  | 0, base, buf => (base, buf)
  | fuel + 1, base, buf =>
    match buf.lookup base with
    | some p =>
      if p.acked then
        advanceBase fuel (base + 1) (buf.filter (fun e => e.1 != base))
      else (base, buf)
    | none => (base, buf)

/-- Embedding of adjust_timeout: once at least 10 RTT samples exist, sort
the most recent 10 (Python sorted; on rationals the ascending reordering is
unique, modelled by insertionSort) and set timeout to 5 times the element
at index 5, divided by 1000; with fewer samples leave timeout unchanged. -/
def adjust_timeout (rtt_list : List ℚ) (timeout : ℚ) : ℚ :=
  if 10 ≤ rtt_list.length then
    let sorted_rtt := (rtt_list.drop (rtt_list.length - 10)).insertionSort (· ≤ ·)
    let median_rtt := sorted_rtt.getD 5 0
    5 * median_rtt / 1000
  else timeout

/-- Body of the ACK-processing branch of receive_ack (the code under the
lock once an ACK packet with positive ack number arrived): every
not-yet-acked buffer entry with sequence below ack is marked acked, its
RTT (now - send_time, in milliseconds) is appended to rtt_list, and
end - start + 1 bytes are released from the window usage (the source
releases one byte more than the chunk length end - start it charged on
send); then base advances past contiguously acked entries, the timer is
stopped and restarted only if base moved and packets remain buffered, and
adjust_timeout runs. -/
def processAck (ack : Nat) (now : ℚ) (s : SenderState) : SenderState :=
  let old_base := s.base
  let newly := s.buffer.filter (newlyAcked ack)
  let rtts := newly.map (fun e => (now - e.2.send_time) * 1000)
  let released : Int := (newly.map (fun e => e.2.end_ - e.2.start + 1)).sum
  let buf1 := s.buffer.map (fun e =>
    if newlyAcked ack e then (e.1, { e.2 with acked := true }) else e)
  let ab := advanceBase buf1.length old_base buf1
  let s1 : SenderState :=
    { s with
      buffer := ab.2
      base := ab.1
      current_window_usage := s.current_window_usage - released
      rtt_list := s.rtt_list ++ rtts }
  let s2 : SenderState :=
    if old_base ≠ ab.1 ∧ ab.2 ≠ [] then
      { s1 with timer_running := true, timer_start := now }
    else s1
  { s2 with timeout := adjust_timeout s2.rtt_list s2.timeout }

/-- Embedding of receive_ack.  The argument recvd is the outcome of the
0.1 s recvfrom poll: none models socket.timeout (state unchanged, the
except branch), some data a received datagram.  Datagrams shorter than 8
bytes are discarded by the length guard; only type-4 packets with positive
ack number are processed. -/
def receive_ack (recvd : Option (List Nat)) (now : ℚ) (s : SenderState) :
    SenderState :=
  match recvd with
  | none => s
  | some data =>
    if data.length < 8 then s
    else
      match parse_header_checked data with
      | none => s
      | some (ptype, _, ack, _, _) =>
        if ptype = 4 ∧ 0 < ack then processAck ack now s
        else s

/-- Embedding of handle_timeout: stop the timer, retransmit every buffered
not-yet-acked packet (refreshing its send time and retry counter, and
bumping the global sent and retransmit counters once per packet), then
restart the timer if the buffer is non-empty. -/
def handle_timeout (now : ℚ) (s : SenderState) : SenderState :=
  let n := (s.buffer.filter (fun e => !e.2.acked)).length
  let buf1 := s.buffer.map (fun e =>
    if e.2.acked then e
    else (e.1, { e.2 with send_time := now, retries := e.2.retries + 1 }))
  let s1 : SenderState :=
    { s with
      timer_running := false
      buffer := buf1
      sent_count := s.sent_count + n
      retransmit_count := s.retransmit_count + n }
  if s1.buffer ≠ [] then { s1 with timer_running := true, timer_start := now }
  else s1

/-! ## Handshake loop (UDPClient.connect) -/

/-- Outcome of one blocking recvfrom during the handshake: either the
socket timeout expires, or a datagram arrives. -/
inductive ConnOutcome where
  | timeout : ConnOutcome
  | reply (data : List Nat) : ConnOutcome
deriving DecidableEq

/-- How a run of the connect loop ends: established (valid SYN_ACK seen),
failed (5 retries exhausted, connect returns False), crashed (struct.error
on a short reply propagates out of connect), or pending (the supplied
outcome sequence ended while the loop was still going). -/
inductive ConnectRes where
  | established : ConnectRes
  | failed : ConnectRes
  | crashed : ConnectRes
  | pending : ConnectRes
deriving DecidableEq

/-- Observable trace of a connect run: how many SYNs were sent, the socket
timeout value armed for each attempt, the final retry counter and timeout
value, and how the run ended. -/
structure ConnectTrace where
  synsSent : Nat
  timeoutsUsed : List ℚ
  retries : Nat
  timeout : ℚ
  res : ConnectRes
deriving DecidableEq

/-- Embedding of the while loop of UDPClient.connect.  Each iteration with
retries < 5 sends a SYN, arms the socket timeout with the current timeout
value, and consumes one receive outcome: on socket.timeout the retry
counter increments and the timeout doubles; on a reply, the header is
parsed (struct.error on short data propagates: crashed) and a SYN_ACK whose
ack equals my_seq + 1 completes the handshake, while any other reply just
falls through to the next loop iteration with retries and timeout
untouched. -/
def connectLoop (my_seq : Nat) (outcomes : List ConnOutcome) (retries : Nat)
    (timeout : ℚ) (syns : Nat) (used : List ℚ) : ConnectTrace :=
  if 5 ≤ retries then ⟨syns, used, retries, timeout, .failed⟩
  else
    match outcomes with
    | [] => ⟨syns, used, retries, timeout, .pending⟩
    | o :: rest =>
      match o with
      | .timeout =>
        connectLoop my_seq rest (retries + 1) (timeout * 2) (syns + 1)
          (used ++ [timeout])
      | .reply data =>
        match parse_header_checked data with
        | none => ⟨syns + 1, used ++ [timeout], retries, timeout, .crashed⟩
        | some (ptype, _, ack, _, _) =>
          if ptype = 2 ∧ ack = my_seq + 1 then
            ⟨syns + 1, used ++ [timeout], retries, timeout, .established⟩
          else connectLoop my_seq rest retries timeout (syns + 1) (used ++ [timeout])

/-- C3: Timeout Controller recompute rule.  With at least 10 recorded
samples, the new timeout is 5 times the index-5 element of the ascending
reordering of the 10 most recent samples, divided by 1000 (stated against
any sorted permutation of the last 10 samples); with fewer than 10 samples
the timeout is left unchanged; and on the concrete sample list
[10,12,11,13,9,15,14,8,16,17] the timeout becomes 65/1000 = 0.065 s. -/
theorem C3_adjust_timeout (l : List ℚ) (t : ℚ) :
    (l.length < 10 → adjust_timeout l t = t) ∧
    (∀ m : List ℚ, 10 ≤ l.length → m.Perm (l.drop (l.length - 10)) →
      m.Sorted (· ≤ ·) → adjust_timeout l t = 5 * m.getD 5 0 / 1000) ∧
    adjust_timeout [10, 12, 11, 13, 9, 15, 14, 8, 16, 17] t = 65 / 1000 := by
  refine ⟨fun h => ?_, fun m hlen hperm hsort => ?_, ?_⟩
  · simp only [adjust_timeout, if_neg (Nat.not_le.mpr h)]
  · have hins : (l.drop (l.length - 10)).insertionSort (· ≤ ·) = m := by
      refine List.eq_of_perm_of_sorted ?_ (List.sorted_insertionSort _ _) hsort
      exact (List.perm_insertionSort _ _).trans hperm.symm
    simp only [adjust_timeout, if_pos hlen, hins]
  · have hs : (([10, 12, 11, 13, 9, 15, 14, 8, 16, 17] : List ℚ).drop
        (([10, 12, 11, 13, 9, 15, 14, 8, 16, 17] : List ℚ).length - 10)).insertionSort
          (· ≤ ·) = [8, 9, 10, 11, 12, 13, 14, 15, 16, 17] := by decide
    simp only [adjust_timeout, hs]
    norm_num

/-- Witness for C3: the concrete spec sample list yields 0.065 s, a sorted
permutation of its last 10 entries instantiates the general rule, and a
short sample list leaves the 0.7 s timeout unchanged. -/
theorem C3_adjust_timeout_witness :
    adjust_timeout [10, 12, 11, 13, 9, 15, 14, 8, 16, 17] (3/10) = 65 / 1000 ∧
    adjust_timeout [10, 12, 11, 13, 9, 15, 14, 8, 16, 17] (3/10) =
      5 * ([8, 9, 10, 11, 12, 13, 14, 15, 16, 17] : List ℚ).getD 5 0 / 1000 ∧
    adjust_timeout [1, 2] (7/10) = 7/10 :=
  ⟨(C3_adjust_timeout [10, 12, 11, 13, 9, 15, 14, 8, 16, 17] (3/10)).2.2,
   (C3_adjust_timeout [10, 12, 11, 13, 9, 15, 14, 8, 16, 17] (3/10)).2.1
     [8, 9, 10, 11, 12, 13, 14, 15, 16, 17] (by decide) (by decide) (by decide),
   (C3_adjust_timeout [1, 2] (7/10)).1 (by decide)⟩

/-- C4: Handshake retry bound.  Against a responder that never replies
(every receive outcome is a socket timeout, whatever comes after the first
five is irrelevant), connect sends exactly 5 SYNs, arming per-attempt
timeouts 0.3, 0.6, 1.2, 2.4 and 4.8 seconds (doubling after each expiry),
and then reports definitive handshake failure instead of retrying
further. -/
theorem C4_handshake_retry_bound (my_seq : Nat) (extra : List ConnOutcome) :
    connectLoop my_seq (List.replicate 5 ConnOutcome.timeout ++ extra) 0
        (3/10) 0 [] =
      ⟨5, [3/10, 6/10, 12/10, 24/10, 48/10], 5, 96/10, .failed⟩ := by
  norm_num [connectLoop, List.replicate]
  rw [connectLoop.eq_def]
  norm_num

/-- C7 (amended): a reply that is not a SYN_ACK with ack = my_seq + 1 is
ignored in the sense that it is not a protocol error, does not abort the
handshake, does not consume a retry and leaves the timeout value unchanged;
but instead of continuing to wait within the same attempt, the loop starts
a new iteration, sending one additional SYN and re-arming the receive
timeout with the same (undoubled) value. -/
theorem C7_invalid_reply_ignored (my_seq : Nat) (outs : List ConnOutcome)
    (retries : Nat) (timeout : ℚ) (syns : Nat) (used : List ℚ)
    (data : List Nat) (pt sq ak w ln : Nat)
    (hparse : parse_header_checked data = some (pt, sq, ak, w, ln))
    (hbad : ¬(pt = 2 ∧ ak = my_seq + 1)) (hr : retries < 5) :
    connectLoop my_seq (.reply data :: outs) retries timeout syns used =
      connectLoop my_seq outs retries timeout (syns + 1) (used ++ [timeout]) := by
  rw [connectLoop, if_neg (Nat.not_le.mpr hr)]
  simp only [hparse, if_neg hbad]

/-- Witness for C7: a concrete invalid reply (an ACK packet, type 4) with
one timeout outcome behind it is skipped without touching retries or the
timeout value. -/
theorem C7_invalid_reply_ignored_witness :
    connectLoop 100 [.reply (build_header 4 0 101 400 0), .timeout] 0 (3/10) 0 [] =
      connectLoop 100 [.timeout] 0 (3/10) 1 [3/10] :=
  C7_invalid_reply_ignored 100 [.timeout] 0 (3/10) 0 []
    (build_header 4 0 101 400 0) 4 0 101 400 0 (by decide) (by decide) (by decide)

/-- Counterexample for C7 as stated: after an invalid reply the initiator
does send an additional SYN (and re-arms the receive timeout) rather than
continuing to wait within the same attempt: feeding one invalid reply
followed by a valid SYN_ACK, the run establishes with 2 SYNs sent and two
armed timeouts, not 1, while retries stays 0. -/
theorem C7_counterexample :
    (connectLoop 100 [.reply (build_header 4 0 101 400 0),
        .reply (build_header 2 7 101 400 0)] 0 (3/10) 0 []) =
      ⟨2, [3/10, 3/10], 0, 3/10, .established⟩ ∧ (2 : Nat) ≠ 1 := by
  refine ⟨?_, by decide⟩
  have h1 : ((4 <<< 4 ||| 15) >>> 4) = 4 := by decide
  have h2 : ((2 <<< 4 ||| 15) >>> 4) = 2 := by decide
  norm_num [connectLoop, parse_header_checked, parse_header, build_header, h1, h2]

/-! ## Server model (udpServer.py) -/

/-- Per-peer connection state kept by the responder. -/
inductive ConnState where
  | CLOSED : ConnState
  | SYN_RECEIVED : ConnState
  | ESTABLISHED : ConnState
deriving DecidableEq

/-- Entry of self.connections: lifecycle state, next expected in-order
sequence number, and the responder's own handshake sequence number. -/
structure PeerConn where
  state : ConnState
  expected_seq : Nat
  my_seq : Nat
deriving DecidableEq

/-- State of UDPServer: the configured drop rate (stored as the integer
percentage int(drop_rate * 100) that the CONFIG packet carries; the
per-packet drop draw random.random() < drop_rate is passed to the handler
as a boolean oracle), the per-address connection table (association list
in insertion order, remote addresses abstracted as naturals), and the
three statistics counters. -/
structure ServerState where
  drop_rate_pct : Nat
  connections : List (Nat × PeerConn)
  cts_sent : Nat
  cts_dropped : Nat
  stc_sent : Nat
deriving DecidableEq

/-- Assignment self.connections[addr] = c (and the field-wise mutations of
an existing record) on the association-list model: rewrite the value stored
at the key. -/
def updateConn (conns : List (Nat × PeerConn)) (addr : Nat) (c : PeerConn) :
    List (Nat × PeerConn) :=
  conns.map (fun e => if e.1 = addr then (addr, c) else e)

/-- Embedding of UDPServer.handle_client.  The struct.error raised by
parsing a datagram shorter than 8 bytes propagates out of the handler and
is modelled as Except.error (the parse happens before any state is
touched).  Otherwise: a record {CLOSED, 0, 0} is first inserted for any
unknown sender address; a SYN overwrites the record with SYN_RECEIVED and
answers SYN_ACK; an ACK in state SYN_RECEIVED establishes, resets
expected_seq and answers a CONFIG packet carrying the drop percentage; a
DATA packet for an established peer is counted, possibly synthetically
dropped (dropDraw), advances expected_seq exactly when its sequence equals
expected_seq, and is answered by one cumulative ACK carrying the current
expected_seq and a timestamp payload (server_time); a FIN answers a FIN
acknowledgment and deletes the record.  The returned list holds the
datagrams sent back. -/
def handle_client (s : ServerState) (data : List Nat) (addr : Nat)
    (dropDraw : Bool) (randSeq : Nat) (server_time : List Nat) :
    Except Unit (ServerState × List (List Nat)) :=
  match parse_header_checked data with
  | none => .error ()
  | some (ptype, seq, _, _, _) =>
    let conns0 := if (s.connections.lookup addr).isSome then s.connections
      else s.connections ++ [(addr, ⟨.CLOSED, 0, 0⟩)]
    let s0 : ServerState := { s with connections := conns0 }
    if ptype = 1 then
      let syn_ack := build_header 2 randSeq (seq + 1) 400 0
      .ok ({ s0 with
        connections := updateConn conns0 addr ⟨.SYN_RECEIVED, 0, randSeq⟩
        stc_sent := s0.stc_sent + 1 }, [syn_ack])
    else if ptype = 4 then
      match conns0.lookup addr with
      | some c =>
        if c.state = .SYN_RECEIVED then
          let config_pkt := build_header 6 0 0 400 1 ++ [s.drop_rate_pct]
          .ok ({ s0 with
            connections := updateConn conns0 addr ⟨.ESTABLISHED, 0, c.my_seq⟩
            stc_sent := s0.stc_sent + 1 }, [config_pkt])
        else .ok (s0, [])
      | none => .ok (s0, [])
    else if ptype = 3 then
      match conns0.lookup addr with
      | some c =>
        if c.state ≠ .ESTABLISHED then .ok (s0, [])
        else
          let s1 : ServerState := { s0 with cts_sent := s0.cts_sent + 1 }
          if dropDraw then
            .ok ({ s1 with cts_dropped := s1.cts_dropped + 1 }, [])
          else
            let c1 := if seq = c.expected_seq then
                { c with expected_seq := c.expected_seq + 1 } else c
            let s2 : ServerState :=
              { s1 with connections := updateConn s1.connections addr c1 }
            let ack_pkt := build_header 4 0 c1.expected_seq 400 server_time.length
            .ok ({ s2 with stc_sent := s2.stc_sent + 1 }, [ack_pkt ++ server_time])
      | none => .ok (s0, [])
    else if ptype = 5 then
      match conns0.lookup addr with
      | some _ =>
        let fin_ack := build_header 5 0 (seq + 1) 400 0
        .ok ({ s0 with
          stc_sent := s0.stc_sent + 1
          connections := conns0.filter (fun e => e.1 != addr) }, [fin_ack])
      | none => .ok (s0, [])
    else .ok (s0, [])

/-- One iteration of the UDPServer.start receiving loop: receive a datagram
and hand it to a fresh handler thread.  An exception raised inside the
handler kills only that thread; since handle_client mutates nothing before
its only raise point (the header parse), the shared state is unchanged in
that case and the loop goes on with the returned state. -/
def start_iteration (s : ServerState) (data : List Nat) (addr : Nat)
    (dropDraw : Bool) (randSeq : Nat) (server_time : List Nat) : ServerState :=
  match handle_client s data addr dropDraw randSeq server_time with
  | .ok (s1, _) => s1
  | .error _ => s

/-- Decoding the ack field of a cumulative-ACK datagram (header plus
timestamp payload) recovers the ack number that was packed, for in-range
ack numbers. -/
theorem parse_ack_field (ne L : Nat) (h : ne ≤ 65535) (payload : List Nat) :
    (parse_header (build_header 4 0 ne 400 L ++ payload)).2.2.1 = ne := by
  simp only [parse_header, build_header, List.cons_append, List.nil_append,
    List.getD_cons_succ, List.getD_cons_zero]
  omega

/-- C5: Ordered receiver on a DATA packet for an ESTABLISHED peer that is
not synthetically dropped: if the packet sequence equals expected_seq the
latter is incremented by one, otherwise (gap or duplicate) it is left
unchanged; in both cases the responder sends exactly one cumulative ACK
datagram whose ack field decodes to the current post-update expected_seq.
The spec example (receiving sequence 2 while expecting 1 leaves
expected_seq at 1 and the ACK carries ack = 1) is the witness below. -/
theorem C5_ordered_receiver (s : ServerState) (addr : Nat) (data : List Nat)
    (seq a w ln : Nat) (c : PeerConn) (randSeq : Nat) (server_time : List Nat)
    (hparse : parse_header_checked data = some (3, seq, a, w, ln))
    (hconn : s.connections.lookup addr = some c)
    (hest : c.state = .ESTABLISHED)
    (hlt : c.expected_seq < 65535) :
    handle_client s data addr false randSeq server_time =
      .ok ({ s with
          connections := updateConn s.connections addr
            { c with expected_seq :=
                if seq = c.expected_seq then c.expected_seq + 1 else c.expected_seq }
          cts_sent := s.cts_sent + 1
          stc_sent := s.stc_sent + 1 },
        [build_header 4 0
            (if seq = c.expected_seq then c.expected_seq + 1 else c.expected_seq)
            400 server_time.length ++ server_time]) ∧
    (parse_header (build_header 4 0
        (if seq = c.expected_seq then c.expected_seq + 1 else c.expected_seq)
        400 server_time.length ++ server_time)).2.2.1 =
      (if seq = c.expected_seq then c.expected_seq + 1 else c.expected_seq) := by
  constructor
  · obtain ⟨cs, ce, cm⟩ := c
    simp only [PeerConn.state] at hest
    subst hest
    simp only [handle_client, hparse, hconn, Option.isSome_some, if_true]
    norm_num
    split <;> exact ⟨rfl, rfl⟩
  · refine parse_ack_field _ _ ?_ _
    split <;> omega

/-- Witness for C5, the out-of-order example of the spec: the peer at
address 7 is established expecting sequence 1; DATA with sequence 2
arrives and is not dropped; expected_seq stays 1 and the single ACK sent
back carries ack = 1 (not 3). -/
theorem C5_ordered_receiver_witness :
    handle_client ⟨30, [(7, ⟨.ESTABLISHED, 1, 9⟩)], 0, 0, 0⟩
        (build_header 3 2 0 400 0) 7 false 0 [] =
      .ok (⟨30, [(7, ⟨.ESTABLISHED, 1, 9⟩)], 1, 0, 1⟩,
        [build_header 4 0 1 400 0]) ∧
    (parse_header (build_header 4 0 1 400 0 ++ [])).2.2.1 = 1 := by
  have h := C5_ordered_receiver ⟨30, [(7, ⟨.ESTABLISHED, 1, 9⟩)], 0, 0, 0⟩ 7
    (build_header 3 2 0 400 0) 2 0 400 0 ⟨.ESTABLISHED, 1, 9⟩ 0 []
    (by decide) (by decide) (by decide) (by decide)
  exact ⟨h.1.trans (by rfl), by decide⟩

/-- C9 (amended): a datagram of fewer than 8 bytes fails header decoding
(struct.unpack raises, modelled as none) rather than yielding a header;
the client receive_ack discards it, leaving the sender state unchanged;
the responder per-packet handler does NOT return normally: it raises the
uncaught struct.error (Except.error), which kills only that handler
thread, with all peer state unchanged; and the receiving loop survives,
continuing with the unchanged server state. -/
theorem C9_malformed_header (data : List Nat) (hshort : data.length < 8) :
    parse_header_checked data = none ∧
    (∀ (s : SenderState) (now : ℚ), receive_ack (some data) now s = s) ∧
    (∀ (s : ServerState) (addr : Nat) (dd : Bool) (rs : Nat) (st : List Nat),
      handle_client s data addr dd rs st = .error ()) ∧
    (∀ (s : ServerState) (addr : Nat) (dd : Bool) (rs : Nat) (st : List Nat),
      start_iteration s data addr dd rs st = s) := by
  have hpc : parse_header_checked data = none := by
    simp [parse_header_checked, hshort]
  refine ⟨hpc, fun s now => ?_, fun s addr dd rs st => ?_, fun s addr dd rs st => ?_⟩
  · simp [receive_ack, if_pos hshort]
  · simp [handle_client, hpc]
  · simp [start_iteration, handle_client, hpc]

/-- Witness for C9 at the concrete 3-byte datagram [1, 2, 3]. -/
theorem C9_malformed_header_witness :
    parse_header_checked [1, 2, 3] = none ∧
    receive_ack (some [1, 2, 3]) 0 (initialSenderState 5 (3/10)) =
      initialSenderState 5 (3/10) ∧
    handle_client ⟨30, [], 0, 0, 0⟩ [1, 2, 3] 7 false 0 [] = .error () ∧
    start_iteration ⟨30, [], 0, 0, 0⟩ [1, 2, 3] 7 false 0 [] = ⟨30, [], 0, 0, 0⟩ :=
  ⟨(C9_malformed_header [1, 2, 3] (by decide)).1,
   (C9_malformed_header [1, 2, 3] (by decide)).2.1 _ 0,
   (C9_malformed_header [1, 2, 3] (by decide)).2.2.1 _ 7 false 0 [],
   (C9_malformed_header [1, 2, 3] (by decide)).2.2.2 _ 7 false 0 []⟩

/-- Counterexample for C9 as stated: on the 3-byte datagram [1, 2, 3] the
responder per-packet handler does not return normally; the struct.error
raised by the header parse propagates out of handle_client. -/
theorem C9_counterexample :
    handle_client ⟨30, [], 0, 0, 0⟩ [1, 2, 3] 7 false 0 [] = Except.error () := by
  rfl

/-- Counterexample for C6 as stated: the responder creates a connection
record on the first datagram of ANY type, not only on a SYN.  Processing a
DATA packet (type 3) from the unknown address 7 leaves a CLOSED record for
7 in the table, although 7 never sent a SYN. -/
theorem C6_counterexample :
    handle_client ⟨30, [], 0, 0, 0⟩ (build_header 3 0 0 400 0) 7 false 0 [] =
      .ok (⟨30, [(7, ⟨.CLOSED, 0, 0⟩)], 0, 0, 0⟩, []) ∧
    (([(7, (⟨.CLOSED, 0, 0⟩ : PeerConn))].lookup 7).isSome = true) := by
  exact ⟨by rfl, by rfl⟩

/-! ## Association-list lemmas for the connection table -/

/-- Looking up in a cons cell, stated with a propositional if. -/
theorem lookup_cons_if {β : Type} (a k : Nat) (v : β) (tl : List (Nat × β)) :
    ((k, v) :: tl).lookup a = if a = k then some v else tl.lookup a := by
  rw [List.lookup_cons]
  by_cases h : a = k
  · simp [h]
  · simp [h, beq_eq_false_iff_ne.mpr h]

theorem lookup_append_single_isSome (conns : List (Nat × PeerConn))
    (addr a : Nat) (c : PeerConn)
    (h : ((conns ++ [(addr, c)]).lookup a).isSome) :
    (conns.lookup a).isSome ∨ a = addr := by
  induction conns with
  | nil =>
    rw [List.nil_append, lookup_cons_if] at h
    by_cases hk : a = addr
    · right; exact hk
    · rw [if_neg hk] at h; simp at h
  | cons e tl ih =>
    obtain ⟨k, v⟩ := e
    rw [List.cons_append, lookup_cons_if] at h
    rw [lookup_cons_if]
    by_cases hk : a = k
    · simp [hk]
    · rw [if_neg hk] at h
      rw [if_neg hk]
      exact ih h

theorem lookup_append_single_self (conns : List (Nat × PeerConn))
    (addr : Nat) (c : PeerConn) (h : conns.lookup addr = none) :
    (conns ++ [(addr, c)]).lookup addr = some c := by
  induction conns with
  | nil => simp [lookup_cons_if]
  | cons e tl ih =>
    obtain ⟨k, v⟩ := e
    rw [List.cons_append, lookup_cons_if]
    rw [lookup_cons_if] at h
    by_cases hk : addr = k
    · rw [if_pos hk] at h; simp at h
    · rw [if_neg hk] at h
      rw [if_neg hk]
      exact ih h

theorem updateConn_cons (k : Nat) (v : PeerConn) (tl : List (Nat × PeerConn))
    (addr : Nat) (c : PeerConn) :
    updateConn ((k, v) :: tl) addr c =
      (if k = addr then (addr, c) else (k, v)) :: updateConn tl addr c := by
  simp [updateConn]

theorem lookup_updateConn_isSome (conns : List (Nat × PeerConn))
    (addr a : Nat) (c : PeerConn)
    (h : ((updateConn conns addr c).lookup a).isSome) :
    (conns.lookup a).isSome := by
  induction conns with
  | nil => simpa [updateConn] using h
  | cons e tl ih =>
    obtain ⟨k, v⟩ := e
    rw [updateConn_cons] at h
    rw [lookup_cons_if]
    by_cases hka : k = addr
    · rw [if_pos hka] at h
      rw [lookup_cons_if] at h
      by_cases hk : a = addr
      · have hak2 : a = k := hk.trans hka.symm
        simp [hak2]
      · rw [if_neg hk] at h
        by_cases hak : a = k
        · simp [hak]
        · rw [if_neg hak]; exact ih h
    · rw [if_neg hka] at h
      rw [lookup_cons_if] at h
      by_cases hak : a = k
      · simp [hak]
      · rw [if_neg hak] at h
        rw [if_neg hak]
        exact ih h

theorem lookup_updateConn_self (conns : List (Nat × PeerConn))
    (addr : Nat) (c : PeerConn) (h : (conns.lookup addr).isSome) :
    (updateConn conns addr c).lookup addr = some c := by
  induction conns with
  | nil => simp [List.lookup] at h
  | cons e tl ih =>
    obtain ⟨k, v⟩ := e
    rw [updateConn_cons]
    rw [lookup_cons_if] at h
    by_cases hka : k = addr
    · rw [if_pos hka, lookup_cons_if, if_pos rfl]
    · rw [if_neg hka, lookup_cons_if]
      have hak : addr ≠ k := fun hh => hka hh.symm
      rw [if_neg hak]
      rw [if_neg hak] at h
      exact ih h

theorem lookup_filter_ne_self (conns : List (Nat × PeerConn)) (addr : Nat) :
    ((conns.filter (fun e => e.1 != addr)).lookup addr) = none := by
  induction conns with
  | nil => simp
  | cons e tl ih =>
    obtain ⟨k, v⟩ := e
    rw [List.filter_cons]
    by_cases hka : k = addr
    · simpa [hka] using ih
    · simp only [bne_iff_ne, ne_eq, hka, not_false_eq_true, decide_True, if_true]
      rw [lookup_cons_if]
      have hak : addr ≠ k := fun hh => hka hh.symm
      rw [if_neg hak]
      exact ih

theorem lookup_filter_ne_isSome (conns : List (Nat × PeerConn)) (addr a : Nat)
    (h : (((conns.filter (fun e => e.1 != addr)).lookup a)).isSome) :
    (conns.lookup a).isSome := by
  induction conns with
  | nil => simpa using h
  | cons e tl ih =>
    obtain ⟨k, v⟩ := e
    rw [List.filter_cons] at h
    rw [lookup_cons_if]
    by_cases hak : a = k
    · simp [hak]
    · rw [if_neg hak]
      by_cases hka : k = addr
      · refine ih ?_
        simpa [hka] using h
      · simp only [bne_iff_ne, ne_eq, hka, not_false_eq_true, decide_True, if_true] at h
        rw [lookup_cons_if, if_neg hak] at h
        exact ih h
end UdpProto
namespace UdpProto

theorem conns0_isSome_imp (conns : List (Nat × PeerConn)) (addr a : Nat)
    (d : PeerConn)
    (h : (((if (conns.lookup addr).isSome then conns else conns ++ [(addr, d)]).lookup a)).isSome) :
    (conns.lookup a).isSome ∨ a = addr := by
  split at h
  · exact Or.inl h
  · exact lookup_append_single_isSome conns addr a d h

theorem conns0_self_isSome (conns : List (Nat × PeerConn)) (addr : Nat)
    (d : PeerConn) :
    (((if (conns.lookup addr).isSome then conns else conns ++ [(addr, d)]).lookup addr)).isSome := by
  split
  · assumption
  · rename_i hn
    rw [lookup_append_single_self conns addr d (Option.not_isSome_iff_eq_none.mp hn)]
    rfl

/-- C6 (amended): the responder creates a connection record for a remote
address upon the FIRST DATAGRAM OF ANY TYPE from that address (not only on
a SYN), and destroys it on FIN (a FIN from an unknown address creates the
record and deletes it again in the same call); hence every address present
in the connection table has previously sent at least one datagram, though
not necessarily a SYN.  Stated as: after any successfully handled datagram,
the table domain is contained in the old domain plus the sender address;
the sender address is present afterwards unless the datagram was a FIN; and
after a FIN the sender address is absent. -/
theorem C6_connection_lifecycle (s : ServerState) (data : List Nat) (addr : Nat)
    (dropDraw : Bool) (randSeq : Nat) (server_time : List Nat)
    (s1 : ServerState) (sent : List (List Nat))
    (pt sq ak w ln : Nat)
    (hp : parse_header_checked data = some (pt, sq, ak, w, ln))
    (hok : handle_client s data addr dropDraw randSeq server_time = .ok (s1, sent)) :
    (∀ a, (s1.connections.lookup a).isSome →
        (s.connections.lookup a).isSome ∨ a = addr) ∧
    (pt ≠ 5 → (s1.connections.lookup addr).isSome) ∧
    (pt = 5 → s1.connections.lookup addr = none) := by
  simp only [handle_client, hp] at hok
  split at hok
  case isTrue hpt =>
    simp only [Except.ok.injEq, Prod.mk.injEq] at hok
    obtain ⟨rfl, rfl⟩ := hok.symm
    refine ⟨fun a ha => ?_, fun _ => ?_, fun h5 => by omega⟩
    · exact conns0_isSome_imp _ _ _ _ (lookup_updateConn_isSome _ _ _ _ ha)
    · rw [lookup_updateConn_self _ _ _ (conns0_self_isSome _ _ _)]
      rfl
  case isFalse hpt1 =>
    split at hok
    case isTrue hpt4 =>
      split at hok
      case h_1 c heq =>
        split at hok
        case isTrue hsr =>
          simp only [Except.ok.injEq, Prod.mk.injEq] at hok
          obtain ⟨rfl, rfl⟩ := hok.symm
          refine ⟨fun a ha => ?_, fun _ => ?_, fun h5 => by omega⟩
          · exact conns0_isSome_imp _ _ _ _ (lookup_updateConn_isSome _ _ _ _ ha)
          · rw [lookup_updateConn_self _ _ _ (conns0_self_isSome _ _ _)]
            rfl
        case isFalse hsr =>
          simp only [Except.ok.injEq, Prod.mk.injEq] at hok
          obtain ⟨rfl, rfl⟩ := hok.symm
          exact ⟨fun a ha => conns0_isSome_imp _ _ _ _ ha,
            fun _ => conns0_self_isSome _ _ _, fun h5 => by omega⟩
      case h_2 heq =>
        simp only [Except.ok.injEq, Prod.mk.injEq] at hok
        obtain ⟨rfl, rfl⟩ := hok.symm
        exact ⟨fun a ha => conns0_isSome_imp _ _ _ _ ha,
          fun _ => conns0_self_isSome _ _ _, fun h5 => by omega⟩
    case isFalse hpt4 =>
      split at hok
      case isTrue hpt3 =>
        split at hok
        case h_1 c heq =>
          split at hok
          case isTrue hne =>
            simp only [Except.ok.injEq, Prod.mk.injEq] at hok
            obtain ⟨rfl, rfl⟩ := hok.symm
            exact ⟨fun a ha => conns0_isSome_imp _ _ _ _ ha,
              fun _ => conns0_self_isSome _ _ _, fun h5 => by omega⟩
          case isFalse hne =>
            split at hok
            case isTrue hdrop =>
              simp only [Except.ok.injEq, Prod.mk.injEq] at hok
              obtain ⟨rfl, rfl⟩ := hok.symm
              exact ⟨fun a ha => conns0_isSome_imp _ _ _ _ ha,
                fun _ => conns0_self_isSome _ _ _, fun h5 => by omega⟩
            case isFalse hdrop =>
              simp only [Except.ok.injEq, Prod.mk.injEq] at hok
              obtain ⟨rfl, rfl⟩ := hok.symm
              refine ⟨fun a ha => ?_, fun _ => ?_, fun h5 => by omega⟩
              · exact conns0_isSome_imp _ _ _ _ (lookup_updateConn_isSome _ _ _ _ ha)
              · rw [lookup_updateConn_self _ _ _ (conns0_self_isSome _ _ _)]
                rfl
        case h_2 heq =>
          simp only [Except.ok.injEq, Prod.mk.injEq] at hok
          obtain ⟨rfl, rfl⟩ := hok.symm
          exact ⟨fun a ha => conns0_isSome_imp _ _ _ _ ha,
            fun _ => conns0_self_isSome _ _ _, fun h5 => by omega⟩
      case isFalse hpt3 =>
        split at hok
        case isTrue hpt5 =>
          split at hok
          case h_1 c heq =>
            simp only [Except.ok.injEq, Prod.mk.injEq] at hok
            obtain ⟨rfl, rfl⟩ := hok.symm
            refine ⟨fun a ha => ?_, fun h5 => by omega, fun _ => ?_⟩
            · exact conns0_isSome_imp _ _ _ _ (lookup_filter_ne_isSome _ _ _ ha)
            · exact lookup_filter_ne_self _ _
          case h_2 heq =>
            exact absurd (conns0_self_isSome s.connections addr
              ⟨.CLOSED, 0, 0⟩) (by rw [heq]; simp)
        case isFalse hpt5 =>
          simp only [Except.ok.injEq, Prod.mk.injEq] at hok
          obtain ⟨rfl, rfl⟩ := hok.symm
          exact ⟨fun a ha => conns0_isSome_imp _ _ _ _ ha,
            fun _ => conns0_self_isSome _ _ _, fun h5 => by omega⟩

/-- Witness for C6 at a concrete input: a SYN from the unknown address 7 on
a fresh server. -/
theorem C6_connection_lifecycle_witness :
    (∀ a, (((⟨30, [(7, ⟨.SYN_RECEIVED, 0, 9⟩)], 0, 0, 1⟩ : ServerState)).connections.lookup a).isSome →
        (((⟨30, [], 0, 0, 0⟩ : ServerState)).connections.lookup a).isSome ∨ a = 7) ∧
    ((1 : Nat) ≠ 5 →
      (((⟨30, [(7, ⟨.SYN_RECEIVED, 0, 9⟩)], 0, 0, 1⟩ : ServerState)).connections.lookup 7).isSome) ∧
    ((1 : Nat) = 5 →
      ((⟨30, [(7, ⟨.SYN_RECEIVED, 0, 9⟩)], 0, 0, 1⟩ : ServerState)).connections.lookup 7 = none) :=
  C6_connection_lifecycle ⟨30, [], 0, 0, 0⟩ (build_header 1 5 0 400 0) 7 false 9 []
    ⟨30, [(7, ⟨.SYN_RECEIVED, 0, 9⟩)], 0, 0, 1⟩ [build_header 2 9 6 400 0]
    1 5 0 400 0 (by rfl) (by rfl)

/-! ## Timer frame effect (C10) -/

/-- Timer effect of the ACK-processing core: the timer is stopped and
restarted (timer_start set to the processing time) exactly when base moved
and packets remain buffered; otherwise both timer fields are untouched. -/
theorem processAck_timer (ack : Nat) (now : ℚ) (s : SenderState) :
    ((processAck ack now s).base ≠ s.base ∧ (processAck ack now s).buffer ≠ [] →
      (processAck ack now s).timer_running = true ∧
      (processAck ack now s).timer_start = now) ∧
    (¬((processAck ack now s).base ≠ s.base ∧ (processAck ack now s).buffer ≠ []) →
      (processAck ack now s).timer_running = s.timer_running ∧
      (processAck ack now s).timer_start = s.timer_start) := by
  simp only [processAck]
  split
  · rename_i hcond
    exact ⟨fun _ => ⟨rfl, rfl⟩, fun hn => absurd ⟨Ne.symm hcond.1, hcond.2⟩ hn⟩
  · rename_i hcond
    exact ⟨fun hc => absurd ⟨Ne.symm hc.1, hc.2⟩ hcond, fun _ => ⟨rfl, rfl⟩⟩

/-- Timer effect of receive_ack as a whole: the non-processing paths
(socket timeout, short datagram, non-ACK packet, zero ack) never touch the
timer, and the processing path behaves as processAck_timer. -/
theorem receive_ack_timer (recvd : Option (List Nat)) (now : ℚ) (s : SenderState) :
    ((receive_ack recvd now s).base ≠ s.base ∧ (receive_ack recvd now s).buffer ≠ [] →
      (receive_ack recvd now s).timer_running = true ∧
      (receive_ack recvd now s).timer_start = now) ∧
    (¬((receive_ack recvd now s).base ≠ s.base ∧ (receive_ack recvd now s).buffer ≠ []) →
      (receive_ack recvd now s).timer_running = s.timer_running ∧
      (receive_ack recvd now s).timer_start = s.timer_start) := by
  match recvd with
  | none => exact ⟨fun hc => absurd rfl hc.1, fun _ => ⟨rfl, rfl⟩⟩
  | some data =>
    rw [receive_ack]
    split
    · exact ⟨fun hc => absurd rfl hc.1, fun _ => ⟨rfl, rfl⟩⟩
    · match hpc : parse_header_checked data with
      | none => exact ⟨fun hc => absurd rfl hc.1, fun _ => ⟨rfl, rfl⟩⟩
      | some (ptype, sq, ack, w, ln) =>
        dsimp only
        by_cases hcond : ptype = 4 ∧ 0 < ack
        · rw [if_pos hcond]
          exact processAck_timer ack now s
        · rw [if_neg hcond]
          exact ⟨fun hc => absurd rfl hc.1, fun _ => ⟨rfl, rfl⟩⟩

/-- The fill-window loop only starts the timer when it is not already
running: a running timer is left running with its old start instant. -/
theorem send_window_packets_timer (fuel : Nat) (rand : Nat → Nat)
    (stime : Nat → ℚ) (s : SenderState) (h : s.timer_running = true) :
    (send_window_packets fuel rand stime s).timer_running = true ∧
    (send_window_packets fuel rand stime s).timer_start = s.timer_start := by
  induction fuel generalizing s with
  | zero => exact ⟨h, rfl⟩
  | succ n ih =>
    simp only [send_window_packets]
    split
    · rw [if_neg (by simp [h])]
      exact ih _ h
    · exact ⟨h, rfl⟩

/-- Concrete state for the C10 witness: an established sender with a
running timer started at instant 42. -/
def c10state : SenderState :=
  { initialSenderState 5 (3/10) with timer_running := true, timer_start := 42 }

/-- C10: frame effect of the ACK processing on the retransmission timer.
receive_ack stops and restarts the timer only when base advanced AND
packets remain buffered; in every other case, including when an ACK
acknowledges and evicts every buffered packet, timer_running and
timer_start are left unchanged (so after the window fully drains the timer
keeps running from its old start instant); and send_window_packets leaves a
running timer alone, so packets sent in the next fill-window pass do not
get a fresh timer. -/
theorem C10_timer_frame_effect (s : SenderState) (recvd : Option (List Nat))
    (now : ℚ) (fuel : Nat) (rand : Nat → Nat) (stime : Nat → ℚ) :
    (¬((receive_ack recvd now s).base ≠ s.base ∧
        (receive_ack recvd now s).buffer ≠ []) →
      (receive_ack recvd now s).timer_running = s.timer_running ∧
      (receive_ack recvd now s).timer_start = s.timer_start) ∧
    ((receive_ack recvd now s).base ≠ s.base ∧
        (receive_ack recvd now s).buffer ≠ [] →
      (receive_ack recvd now s).timer_running = true ∧
      (receive_ack recvd now s).timer_start = now) ∧
    (s.timer_running = true →
      (send_window_packets fuel rand stime s).timer_running = true ∧
      (send_window_packets fuel rand stime s).timer_start = s.timer_start) :=
  ⟨(receive_ack_timer recvd now s).2, (receive_ack_timer recvd now s).1,
   fun h => send_window_packets_timer fuel rand stime s h⟩

/-- Witness for C10: on the concrete running-timer state, a socket timeout
leaves the timer fields alone, and a fill-window pass with the timer
already running keeps it running from instant 42. -/
theorem C10_timer_frame_effect_witness :
    ((receive_ack none 0 c10state).timer_running = c10state.timer_running ∧
     (receive_ack none 0 c10state).timer_start = c10state.timer_start) ∧
    ((send_window_packets 0 (fun _ => 40) (fun _ => 0) c10state).timer_running = true ∧
     (send_window_packets 0 (fun _ => 40) (fun _ => 0) c10state).timer_start =
       c10state.timer_start) :=
  ⟨(C10_timer_frame_effect c10state none 0 0 (fun _ => 40) (fun _ => 0)).1 (by decide),
   (C10_timer_frame_effect c10state none 0 0 (fun _ => 40) (fun _ => 0)).2.2 (by rfl)⟩


/-! ## Window-state invariant (C2) and RTT sample list (C8) -/

/-- Sum of the payload sizes (end - start, the length of the chunk charged
to the window on send) of the buffered not-yet-acknowledged packets. -/
def sumUnacked (buf : List (Nat × PendingPacket)) : Int :=
  ((buf.filter (fun e => !e.2.acked)).map (fun e => e.2.end_ - e.2.start)).sum

/-- Number of buffered packets already marked acknowledged (still waiting
for base to sweep past them). -/
def countAcked (buf : List (Nat × PendingPacket)) : Nat :=
  (buf.filter (fun e => e.2.acked)).length

/-- Well-formedness of reachable sender states.  Alongside base ≤ next_seq
and the 400-byte window bound, the accounting identity says that
current_window_usage undercounts the unacknowledged payload sum by exactly
one byte per packet ever acknowledged: the acknowledgment path releases
end - start + 1 bytes although the send path charged end - start.  Packets
swept out of the buffer number exactly base; acknowledged packets still
buffered number countAcked.  The remaining clauses (target ≤ 200, key
bounds, sortedness) are the structural facts the operations maintain; with
the source default target_packets = 30 the payload slicing stays inside
the 8000-byte test data. -/
def WF (s : SenderState) : Prop :=
  s.base ≤ s.next_seq ∧
  s.next_seq ≤ s.target_packets ∧
  s.target_packets ≤ 200 ∧
  s.current_window_usage ≤ 400 ∧
  s.current_window_usage + (s.base : Int) + (countAcked s.buffer : Int) =
    sumUnacked s.buffer ∧
  (∀ e ∈ s.buffer, e.2.start ≤ e.2.end_ ∧ s.base ≤ e.1 ∧ e.1 < s.next_seq) ∧
  s.buffer.Pairwise (fun e f => e.1 < f.1)

/-- Unfolding countAcked over a cons cell. -/
theorem countAcked_cons (e : Nat × PendingPacket) (tl : List (Nat × PendingPacket)) :
    countAcked (e :: tl) = (if e.2.acked then 1 else 0) + countAcked tl := by
  by_cases h : e.2.acked <;> simp [countAcked, List.filter_cons, h, Nat.add_comm]

/-- Unfolding sumUnacked over a cons cell. -/
theorem sumUnacked_cons (e : Nat × PendingPacket) (tl : List (Nat × PendingPacket)) :
    sumUnacked (e :: tl) =
      (if e.2.acked then 0 else e.2.end_ - e.2.start) + sumUnacked tl := by
  by_cases h : e.2.acked <;> simp [sumUnacked, List.filter_cons, h]

/-- countAcked distributes over append. -/
theorem countAcked_append (l1 l2 : List (Nat × PendingPacket)) :
    countAcked (l1 ++ l2) = countAcked l1 + countAcked l2 := by
  simp [countAcked, List.filter_append]

/-- sumUnacked distributes over append. -/
theorem sumUnacked_append (l1 l2 : List (Nat × PendingPacket)) :
    sumUnacked (l1 ++ l2) = sumUnacked l1 + sumUnacked l2 := by
  simp [sumUnacked, List.filter_append]

/-- Summing f + 1 over a list adds the list length to the sum of f; this
splits the per-packet release end - start + 1 into payload plus one. -/
theorem sum_map_add_one (l : List (Nat × PendingPacket))
    (f : Nat × PendingPacket → Int) :
    (l.map (fun e => f e + 1)).sum = (l.map f).sum + l.length := by
  induction l with
  | nil => simp
  | cons e tl ih => simp [ih]; ring

/-- Marking the newly acknowledged entries raises countAcked by the number
of newly acknowledged packets. -/
theorem mark_countAcked (ack : Nat) (buf : List (Nat × PendingPacket)) :
    countAcked (buf.map (fun e =>
        if newlyAcked ack e then (e.1, { e.2 with acked := true }) else e)) =
      countAcked buf + (buf.filter (newlyAcked ack)).length := by
  induction buf with
  | nil => simp [countAcked]
  | cons e tl ih =>
    rw [List.map_cons, countAcked_cons, List.filter_cons, countAcked_cons]
    by_cases hn : newlyAcked ack e
    · have hna : e.2.acked = false := by
        have := hn
        unfold newlyAcked at this
        simp at this
        exact this.2
      simp [hn, hna, ih]
      omega
    · simp [hn, ih]
      omega

/-- Marking the newly acknowledged entries removes exactly their payload
sizes from sumUnacked. -/
theorem mark_sumUnacked (ack : Nat) (buf : List (Nat × PendingPacket)) :
    sumUnacked (buf.map (fun e =>
        if newlyAcked ack e then (e.1, { e.2 with acked := true }) else e)) =
      sumUnacked buf -
        ((buf.filter (newlyAcked ack)).map (fun e => e.2.end_ - e.2.start)).sum := by
  induction buf with
  | nil => simp [sumUnacked]
  | cons e tl ih =>
    rw [List.map_cons, sumUnacked_cons, List.filter_cons, sumUnacked_cons]
    by_cases hn : newlyAcked ack e
    · have hna : e.2.acked = false := by
        have := hn
        unfold newlyAcked at this
        simp at this
        exact this.2
      simp [hn, hna, ih]
      try ring
    · simp [hn, ih]
      try ring
/-- A successful association-list lookup yields a member. -/
theorem lookup_mem {β : Type} (buf : List (Nat × β)) (k : Nat) (p : β)
    (h : buf.lookup k = some p) : (k, p) ∈ buf := by
  induction buf with
  | nil => simp [List.lookup] at h
  | cons e tl ih =>
    obtain ⟨a, v⟩ := e
    rw [lookup_cons_if] at h
    by_cases hk : k = a
    · rw [if_pos hk] at h
      cases h
      simp [hk]
    · rw [if_neg hk] at h
      exact List.mem_cons_of_mem _ (ih h)

/-- Deleting the entry an acked lookup found (dict del, modelled as a key
filter) lowers countAcked by one and leaves sumUnacked unchanged, provided
the keys are strictly sorted. -/
theorem erase_acked_counts (buf : List (Nat × PendingPacket)) (base : Nat)
    (p : PendingPacket) (hpw : buf.Pairwise (fun e f => e.1 < f.1))
    (hlk : buf.lookup base = some p) (hacked : p.acked = true) :
    countAcked (buf.filter (fun e => e.1 != base)) + 1 = countAcked buf ∧
    sumUnacked (buf.filter (fun e => e.1 != base)) = sumUnacked buf := by
  induction buf with
  | nil => simp [List.lookup] at hlk
  | cons e tl ih =>
    obtain ⟨k, v⟩ := e
    rw [lookup_cons_if] at hlk
    rw [List.filter_cons]
    by_cases hk : base = k
    · rw [if_pos hk] at hlk
      cases hlk
      have htl : tl.filter (fun e => e.1 != base) = tl := by
        refine List.filter_eq_self.mpr fun e he => ?_
        have : k < e.1 := (List.pairwise_cons.mp hpw).1 e he
        simp only [bne_iff_ne, ne_eq, decide_eq_true_eq]
        omega
      have hkb : ((k, p).1 != base) = false := by
        simp [hk.symm]
      rw [hkb]
      rw [if_neg (by simp)]
      rw [htl, countAcked_cons, sumUnacked_cons]
      simp [hacked]
      omega
    · rw [if_neg hk] at hlk
      have hkb : ((k, v).1 != base) = true := by
        simp only [bne_iff_ne, ne_eq, decide_eq_true_eq]
        exact fun hh => hk hh.symm
      rw [hkb]
      rw [if_pos rfl]
      rw [countAcked_cons, countAcked_cons, sumUnacked_cons, sumUnacked_cons]
      obtain ⟨h1, h2⟩ := ih (List.pairwise_cons.mp hpw).2 hlk
      constructor
      · omega
      · rw [h2]
/-- Invariants of the base-advancing loop: the remaining buffer is a
sublist of the input, base does not decrease, base plus countAcked is
preserved (each sweep removes one acked entry and increments base),
sumUnacked is untouched (only acked entries are removed), the final base
is a lower bound for the remaining keys, and the final base respects any
strict upper bound on the keys. -/
theorem advanceBase_spec (fuel : Nat) :
    ∀ (base : Nat) (buf : List (Nat × PendingPacket)),
    buf.Pairwise (fun e f => e.1 < f.1) →
    (∀ e ∈ buf, base ≤ e.1) →
    (advanceBase fuel base buf).2.Sublist buf ∧
    base ≤ (advanceBase fuel base buf).1 ∧
    ((advanceBase fuel base buf).1 : Int) +
        (countAcked (advanceBase fuel base buf).2 : Int) =
      (base : Int) + (countAcked buf : Int) ∧
    sumUnacked (advanceBase fuel base buf).2 = sumUnacked buf ∧
    (∀ e ∈ (advanceBase fuel base buf).2, (advanceBase fuel base buf).1 ≤ e.1) ∧
    (∀ N, base ≤ N → (∀ e ∈ buf, e.1 < N) → (advanceBase fuel base buf).1 ≤ N) := by
  induction fuel with
  | zero =>
    intro base buf hpw hlb
    exact ⟨List.Sublist.refl _, le_refl _, rfl, rfl, hlb, fun N hN _ => hN⟩
  | succ n ih =>
    intro base buf hpw hlb
    rw [advanceBase]
    cases hlk : buf.lookup base with
    | none =>
      exact ⟨List.Sublist.refl _, le_refl _, rfl, rfl, hlb, fun N hN _ => hN⟩
    | some p =>
      dsimp only
      by_cases hacked : p.acked = true
      · rw [if_pos hacked]
        have hsub' : (buf.filter (fun e => e.1 != base)).Sublist buf :=
          List.filter_sublist _
        have hpw' : (buf.filter (fun e => e.1 != base)).Pairwise
            (fun e f => e.1 < f.1) := hpw.sublist hsub'
        have hlb' : ∀ e ∈ buf.filter (fun e => e.1 != base), base + 1 ≤ e.1 := by
          intro e he
          have h1 := hlb e (hsub'.subset he)
          have h2 : e.1 ≠ base := by simpa using List.of_mem_filter he
          omega
        obtain ⟨s1, s2, s3, s4, s5, s6⟩ := ih (base + 1)
          (buf.filter (fun e => e.1 != base)) hpw' hlb'
        obtain ⟨c1, c2⟩ := erase_acked_counts buf base p hpw hlk hacked
        refine ⟨s1.trans hsub', by omega, ?_, by rw [s4, c2], s5, ?_⟩
        · rw [s3]
          push_cast
          omega
        · intro N hN hub
          refine s6 N ?_ (fun e he => hub e (hsub'.subset he))
          have hmem : (base, p) ∈ buf := lookup_mem _ _ _ hlk
          have := hub _ hmem
          simp only at this
          omega
      · rw [if_neg hacked]
        exact ⟨List.Sublist.refl _, le_refl _, rfl, rfl, hlb, fun N hN _ => hN⟩
/-- Marking an entry acked does not change its key. -/
theorem mark_key (ack : Nat) (e : Nat × PendingPacket) :
    (if newlyAcked ack e then (e.1, { e.2 with acked := true }) else e).1 = e.1 := by
  split <;> rfl

/-- Marking an entry acked does not change its payload start. -/
theorem mark_start (ack : Nat) (e : Nat × PendingPacket) :
    (if newlyAcked ack e then (e.1, { e.2 with acked := true }) else e).2.start =
      e.2.start := by
  split <;> rfl

/-- Marking an entry acked does not change its payload end. -/
theorem mark_end (ack : Nat) (e : Nat × PendingPacket) :
    (if newlyAcked ack e then (e.1, { e.2 with acked := true }) else e).2.end_ =
      e.2.end_ := by
  split <;> rfl

/-- Field-level description of processAck: base and buffer come from the
advancing loop over the marked buffer, the window usage drops by the sum
of end - start + 1 over the newly acknowledged entries, next_seq and
target are untouched, and the RTT list grows by the new measurements. -/
theorem processAck_fields (ack : Nat) (now : ℚ) (s : SenderState) :
    (processAck ack now s).base =
      (advanceBase (s.buffer.map (fun e =>
          if newlyAcked ack e then (e.1, { e.2 with acked := true }) else e)).length
        s.base (s.buffer.map (fun e =>
          if newlyAcked ack e then (e.1, { e.2 with acked := true }) else e))).1 ∧
    (processAck ack now s).buffer =
      (advanceBase (s.buffer.map (fun e =>
          if newlyAcked ack e then (e.1, { e.2 with acked := true }) else e)).length
        s.base (s.buffer.map (fun e =>
          if newlyAcked ack e then (e.1, { e.2 with acked := true }) else e))).2 ∧
    (processAck ack now s).current_window_usage =
      s.current_window_usage -
        ((s.buffer.filter (newlyAcked ack)).map
          (fun e => e.2.end_ - e.2.start + 1)).sum ∧
    (processAck ack now s).next_seq = s.next_seq ∧
    (processAck ack now s).target_packets = s.target_packets ∧
    (processAck ack now s).rtt_list =
      s.rtt_list ++ ((s.buffer.filter (newlyAcked ack)).map
        (fun e => (now - e.2.send_time) * 1000)) := by
  simp only [processAck]
  split <;> exact ⟨rfl, rfl, rfl, rfl, rfl, rfl⟩

/-- ACK processing preserves the sender invariant. -/
theorem WF_processAck (ack : Nat) (now : ℚ) (s : SenderState) (h : WF s) :
    WF (processAck ack now s) := by
  obtain ⟨h1, h2, h3, h4, h5, h6, h7⟩ := h
  obtain ⟨pb, pe, pu, pn, pt, pr⟩ := processAck_fields ack now s
  have hmem1 : ∀ e ∈ s.buffer.map (fun e =>
      if newlyAcked ack e then (e.1, { e.2 with acked := true }) else e),
      e.2.start ≤ e.2.end_ ∧ s.base ≤ e.1 ∧ e.1 < s.next_seq := by
    intro e he
    obtain ⟨e0, he0, rfl⟩ := List.mem_map.mp he
    obtain ⟨q1, q2, q3⟩ := h6 e0 he0
    rw [mark_start, mark_end, mark_key]
    exact ⟨q1, q2, q3⟩
  have hpw1 : (s.buffer.map (fun e =>
      if newlyAcked ack e then (e.1, { e.2 with acked := true }) else e)).Pairwise
      (fun a b => a.1 < b.1) := by
    rw [List.pairwise_map]
    refine h7.imp ?_
    intro a b hab
    rw [mark_key, mark_key]
    exact hab
  obtain ⟨s1, s2, s3, s4, s5, s6⟩ :=
    advanceBase_spec (s.buffer.map (fun e =>
      if newlyAcked ack e then (e.1, { e.2 with acked := true }) else e)).length
      s.base (s.buffer.map (fun e =>
      if newlyAcked ack e then (e.1, { e.2 with acked := true }) else e))
      hpw1 (fun e he => (hmem1 e he).2.1)
  have hca := mark_countAcked ack s.buffer
  have hsu := mark_sumUnacked ack s.buffer
  have hrel := sum_map_add_one (s.buffer.filter (newlyAcked ack))
    (fun e => e.2.end_ - e.2.start)
  have hSnn : 0 ≤ ((s.buffer.filter (newlyAcked ack)).map
      (fun e => e.2.end_ - e.2.start)).sum := by
    refine List.sum_nonneg ?_
    intro x hx
    obtain ⟨e0, he0, rfl⟩ := List.mem_map.mp hx
    have := (h6 e0 (List.mem_of_mem_filter he0)).1
    omega
  refine ⟨?_, ?_, ?_, ?_, ?_, ?_, ?_⟩
  · rw [pb, pn]
    exact s6 s.next_seq h1 (fun e he => (hmem1 e he).2.2)
  · rw [pn, pt]
    exact h2
  · rw [pt]
    exact h3
  · rw [pu]
    omega
  · rw [pu, pb, pe, s4, hsu]
    omega
  · intro e he
    rw [pe] at he
    have hin1 := s1.subset he
    refine ⟨(hmem1 e hin1).1, ?_, ?_⟩
    · rw [pb]
      exact s5 e he
    · rw [pn]
      exact (hmem1 e hin1).2.2
  · rw [pe]
    exact hpw1.sublist s1
/-- receive_ack preserves the sender invariant on every path. -/
theorem WF_receive_ack (recvd : Option (List Nat)) (now : ℚ) (s : SenderState)
    (h : WF s) : WF (receive_ack recvd now s) := by
  match recvd with
  | none => exact h
  | some data =>
    rw [receive_ack]
    split
    · exact h
    · match hpc : parse_header_checked data with
      | none => exact h
      | some (pt, sq, ak, w, ln) =>
        dsimp only
        by_cases hcond : pt = 4 ∧ 0 < ak
        · rw [if_pos hcond]
          exact WF_processAck ak now s h
        · rw [if_neg hcond]
          exact h

/-- countAcked is invariant under maps that keep the acked flag. -/
theorem countAcked_map_preserve (buf : List (Nat × PendingPacket))
    (f : Nat × PendingPacket → Nat × PendingPacket)
    (hf : ∀ e, (f e).2.acked = e.2.acked) :
    countAcked (buf.map f) = countAcked buf := by
  induction buf with
  | nil => rfl
  | cons e tl ih =>
    rw [List.map_cons, countAcked_cons, countAcked_cons, hf, ih]

/-- sumUnacked is invariant under maps that keep the acked flag and the
payload size. -/
theorem sumUnacked_map_preserve (buf : List (Nat × PendingPacket))
    (f : Nat × PendingPacket → Nat × PendingPacket)
    (hf : ∀ e, (f e).2.acked = e.2.acked ∧
      (f e).2.end_ - (f e).2.start = e.2.end_ - e.2.start) :
    sumUnacked (buf.map f) = sumUnacked buf := by
  induction buf with
  | nil => rfl
  | cons e tl ih =>
    rw [List.map_cons, sumUnacked_cons, sumUnacked_cons, (hf e).1, (hf e).2, ih]

/-- Retransmission bookkeeping keeps the acked flag. -/
theorem retrans_acked (now : ℚ) (e : Nat × PendingPacket) :
    (if e.2.acked then e
      else (e.1, { e.2 with send_time := now, retries := e.2.retries + 1 })).2.acked =
      e.2.acked := by
  split <;> rfl

/-- Retransmission bookkeeping keeps the key. -/
theorem retrans_key (now : ℚ) (e : Nat × PendingPacket) :
    (if e.2.acked then e
      else (e.1, { e.2 with send_time := now, retries := e.2.retries + 1 })).1 =
      e.1 := by
  split <;> rfl

/-- Retransmission bookkeeping keeps the payload size. -/
theorem retrans_range (now : ℚ) (e : Nat × PendingPacket) :
    (if e.2.acked then e
      else (e.1, { e.2 with send_time := now, retries := e.2.retries + 1 })).2.end_ -
      (if e.2.acked then e
        else (e.1, { e.2 with send_time := now, retries := e.2.retries + 1 })).2.start =
      e.2.end_ - e.2.start := by
  split <;> rfl

/-- Retransmission bookkeeping keeps start ≤ end. -/
theorem retrans_start_le (now : ℚ) (e : Nat × PendingPacket)
    (h : e.2.start ≤ e.2.end_) :
    (if e.2.acked then e
      else (e.1, { e.2 with send_time := now, retries := e.2.retries + 1 })).2.start ≤
      (if e.2.acked then e
        else (e.1, { e.2 with send_time := now, retries := e.2.retries + 1 })).2.end_ := by
  split <;> exact h

/-- Field-level description of handle_timeout: window accounting and
sequence numbers are untouched; the buffer is mapped by the retransmission
bookkeeping. -/
theorem handle_timeout_fields (now : ℚ) (s : SenderState) :
    (handle_timeout now s).base = s.base ∧
    (handle_timeout now s).next_seq = s.next_seq ∧
    (handle_timeout now s).target_packets = s.target_packets ∧
    (handle_timeout now s).current_window_usage = s.current_window_usage ∧
    (handle_timeout now s).buffer = s.buffer.map (fun e =>
      if e.2.acked then e
      else (e.1, { e.2 with send_time := now, retries := e.2.retries + 1 })) := by
  simp only [handle_timeout]
  split <;> exact ⟨rfl, rfl, rfl, rfl, rfl⟩

/-- Timeout retransmission preserves the sender invariant. -/
theorem WF_handle_timeout (now : ℚ) (s : SenderState) (h : WF s) :
    WF (handle_timeout now s) := by
  obtain ⟨h1, h2, h3, h4, h5, h6, h7⟩ := h
  obtain ⟨pb, pn, pt, pu, pe⟩ := handle_timeout_fields now s
  refine ⟨?_, ?_, ?_, ?_, ?_, ?_, ?_⟩
  · rw [pb, pn]; exact h1
  · rw [pn, pt]; exact h2
  · rw [pt]; exact h3
  · rw [pu]; exact h4
  · rw [pu, pb, pe]
    rw [countAcked_map_preserve _ _ (retrans_acked now),
      sumUnacked_map_preserve _ _ (fun e => ⟨retrans_acked now e, retrans_range now e⟩)]
    exact h5
  · intro e he
    rw [pe] at he
    obtain ⟨e0, he0, rfl⟩ := List.mem_map.mp he
    obtain ⟨q1, q2, q3⟩ := h6 e0 he0
    rw [pb, pn, retrans_key]
    exact ⟨retrans_start_le now e0 q1, q2, q3⟩
  · rw [pe, List.pairwise_map]
    refine h7.imp ?_
    intro a b hab
    rw [retrans_key, retrans_key]
    exact hab
/-- Length of the payload slice for in-range indices: exactly b - a
bytes. -/
theorem pySlice_length_int (a b : Int) (h0 : 0 ≤ a) (hab : a ≤ b)
    (hb : b ≤ 8000) : ((pySlice testData a b).length : Int) = b - a := by
  simp only [pySlice, List.length_drop, List.length_take, testData_length]
  omega

/-- Appending one fresh unacknowledged packet whose charged length L
matches its byte range and respects the window bound preserves the sender
invariant. -/
theorem WF_push (s : SenderState) (pkt : List Nat) (st : ℚ) (A E : Int) (L : Nat)
    (h : WF s) (hlt : s.next_seq < s.target_packets) (hAE : A ≤ E)
    (hL : (L : Int) = E - A)
    (hbound : s.current_window_usage + (L : Int) ≤ 400) :
    WF { s with
      buffer := s.buffer ++ [(s.next_seq, ⟨pkt, st, false, A, E, 0⟩)]
      sent_count := s.sent_count + 1
      initial_sent := s.initial_sent + 1
      next_seq := s.next_seq + 1
      current_window_usage := s.current_window_usage + (L : Int) } := by
  obtain ⟨h1, h2, h3, h4, h5, h6, h7⟩ := h
  refine ⟨?_, ?_, ?_, ?_, ?_, ?_, ?_⟩
  · show s.base ≤ s.next_seq + 1
    omega
  · show s.next_seq + 1 ≤ s.target_packets
    omega
  · show s.target_packets ≤ 200
    exact h3
  · show s.current_window_usage + (L : Int) ≤ 400
    exact hbound
  · show s.current_window_usage + (L : Int) + (s.base : Int) +
      (countAcked (s.buffer ++ [(s.next_seq, ⟨pkt, st, false, A, E, 0⟩)]) : Int) =
      sumUnacked (s.buffer ++ [(s.next_seq, ⟨pkt, st, false, A, E, 0⟩)])
    rw [countAcked_append, sumUnacked_append]
    have hc1 : countAcked [(s.next_seq, (⟨pkt, st, false, A, E, 0⟩ : PendingPacket))] = 0 := rfl
    have hs1 : sumUnacked [(s.next_seq, (⟨pkt, st, false, A, E, 0⟩ : PendingPacket))] =
        E - A := by
      simp [sumUnacked]
    rw [hc1, hs1]
    omega
  · show ∀ e ∈ s.buffer ++ [(s.next_seq, (⟨pkt, st, false, A, E, 0⟩ : PendingPacket))],
      e.2.start ≤ e.2.end_ ∧ s.base ≤ e.1 ∧ e.1 < s.next_seq + 1
    intro e he
    rcases List.mem_append.mp he with hold | hnew
    · obtain ⟨q1, q2, q3⟩ := h6 e hold
      exact ⟨q1, q2, by omega⟩
    · rcases List.mem_singleton.mp hnew with rfl
      exact ⟨hAE, h1, by omega⟩
  · refine List.pairwise_append.mpr ⟨h7, List.pairwise_singleton _ _, ?_⟩
    intro a ha b hb
    rcases List.mem_singleton.mp hb with rfl
    exact (h6 a ha).2.2

/-- The fill-window loop preserves the sender invariant. -/
theorem WF_send (fuel : Nat) (rand : Nat → Nat) (stime : Nat → ℚ)
    (s : SenderState) (h : WF s) : WF (send_window_packets fuel rand stime s) := by
  induction fuel generalizing s with
  | zero => exact h
  | succ n ih =>
    rw [send_window_packets]
    split
    · rename_i hcond
      obtain ⟨hlt, hu⟩ := hcond
      apply ih
      have hA0 : (0 : Int) ≤ (s.next_seq : Int) * 40 := by positivity
      have hn199 : s.next_seq ≤ 199 := by
        have := h.2.1
        have := h.2.2.1
        omega
      have hA8 : (s.next_seq : Int) * 40 ≤ 7960 := by
        have : (s.next_seq : Int) ≤ 199 := by exact_mod_cast hn199
        linarith
      have hP0 : (0 : Int) ≤ min ((rand s.next_seq : Int))
          (400 - s.current_window_usage) := by
        refine le_min (by positivity) (by omega)
      have hcalc : calculate_data_range s.next_seq
          (min ((rand s.next_seq : Int)) (400 - s.current_window_usage)) =
          ((s.next_seq : Int) * 40,
           (s.next_seq : Int) * 40 +
             min (min ((rand s.next_seq : Int)) (400 - s.current_window_usage))
               (8000 - (s.next_seq : Int) * 40)) := rfl
      have hM0 : (0 : Int) ≤ min (min ((rand s.next_seq : Int))
          (400 - s.current_window_usage)) (8000 - (s.next_seq : Int) * 40) :=
        le_min hP0 (by linarith)
      have hMP : min (min ((rand s.next_seq : Int)) (400 - s.current_window_usage))
          (8000 - (s.next_seq : Int) * 40) ≤
          min ((rand s.next_seq : Int)) (400 - s.current_window_usage) :=
        min_le_left _ _
      have hPu : min ((rand s.next_seq : Int)) (400 - s.current_window_usage) ≤
          400 - s.current_window_usage := min_le_right _ _
      have hMQ : min (min ((rand s.next_seq : Int)) (400 - s.current_window_usage))
          (8000 - (s.next_seq : Int) * 40) ≤ 8000 - (s.next_seq : Int) * 40 :=
        min_le_right _ _
      have hAE : (calculate_data_range s.next_seq
          (min ((rand s.next_seq : Int)) (400 - s.current_window_usage))).1 ≤
          (calculate_data_range s.next_seq
          (min ((rand s.next_seq : Int)) (400 - s.current_window_usage))).2 := by
        rw [hcalc]
        dsimp only
        linarith
      have hE8 : (calculate_data_range s.next_seq
          (min ((rand s.next_seq : Int)) (400 - s.current_window_usage))).2 ≤ 8000 := by
        rw [hcalc]
        dsimp only
        linarith
      have hA0' : (0 : Int) ≤ (calculate_data_range s.next_seq
          (min ((rand s.next_seq : Int)) (400 - s.current_window_usage))).1 := by
        rw [hcalc]
        exact hA0
      have hL := pySlice_length_int _ _ hA0' hAE hE8
      have hbound : s.current_window_usage +
          ((pySlice testData (calculate_data_range s.next_seq
            (min ((rand s.next_seq : Int)) (400 - s.current_window_usage))).1
            (calculate_data_range s.next_seq
            (min ((rand s.next_seq : Int)) (400 - s.current_window_usage))).2).length : Int)
          ≤ 400 := by
        rw [hL, hcalc]
        dsimp only
        linarith
      split
      · exact WF_push s _ _ _ _ _ h hlt hAE hL hbound
      · exact WF_push s _ _ _ _ _ h hlt hAE hL hbound
    · exact h
/-- The post-handshake initial state satisfies the invariant. -/
theorem WF_initial (target : Nat) (timeout : ℚ) (ht : target ≤ 200) :
    WF (initialSenderState target timeout) :=
  ⟨le_refl 0, Nat.zero_le _, ht, by norm_num [initialSenderState],
   by simp [countAcked, sumUnacked, initialSenderState],
   by simp [initialSenderState], List.Pairwise.nil⟩

/-- C2 (amended): the Window State invariant that every sender operation
(fill-window send, ACK processing, timeout retransmission) actually
preserves, from the post-handshake initial state on: base ≤ nextSeq and
bytesInFlight ≤ 400 hold as claimed, but bytesInFlight does NOT equal the
sum of the buffered unacknowledged payload sizes; instead
bytesInFlight + base + (acked packets still buffered) = that sum, because
each acknowledgment releases end - start + 1 bytes where the send charged
end - start (one extra byte per acknowledged packet). -/
theorem C2_window_invariant :
    (∀ (target : Nat) (timeout : ℚ), target ≤ 200 →
      WF (initialSenderState target timeout)) ∧
    (∀ (fuel : Nat) (rand : Nat → Nat) (stime : Nat → ℚ) (s : SenderState),
      WF s → WF (send_window_packets fuel rand stime s)) ∧
    (∀ (recvd : Option (List Nat)) (now : ℚ) (s : SenderState),
      WF s → WF (receive_ack recvd now s)) ∧
    (∀ (now : ℚ) (s : SenderState), WF s → WF (handle_timeout now s)) :=
  ⟨fun t tmo ht => WF_initial t tmo ht,
   fun fuel rand stime s h => WF_send fuel rand stime s h,
   fun recvd now s h => WF_receive_ack recvd now s h,
   fun now s h => WF_handle_timeout now s h⟩

/-- Witness for C2: the invariant instantiated along a concrete run
(initial state for 5 packets, a fill-window pass, an ACK, a timeout
retransmission). -/
theorem C2_window_invariant_witness :
    WF (initialSenderState 5 (3/10)) ∧
    WF (send_window_packets 5 (fun _ => 40) (fun _ => 0)
      (initialSenderState 5 (3/10))) ∧
    WF (receive_ack (some (build_header 4 0 1 400 0)) (1/100)
      (send_window_packets 5 (fun _ => 40) (fun _ => 0)
        (initialSenderState 5 (3/10)))) ∧
    WF (handle_timeout 1 (initialSenderState 5 (3/10))) :=
  ⟨C2_window_invariant.1 5 (3/10) (by decide),
   C2_window_invariant.2.1 5 (fun _ => 40) (fun _ => 0) _
     (C2_window_invariant.1 5 (3/10) (by decide)),
   C2_window_invariant.2.2.1 (some (build_header 4 0 1 400 0)) (1/100) _
     (C2_window_invariant.2.1 5 (fun _ => 40) (fun _ => 0) _
       (C2_window_invariant.1 5 (3/10) (by decide))),
   C2_window_invariant.2.2.2 1 _ (C2_window_invariant.1 5 (3/10) (by decide))⟩

/-- Counterexample for C2 as stated: starting from the post-handshake
state with one target packet, sending one 40-byte packet (usage 40) and
processing the cumulative ACK 1 leaves current_window_usage = -1 (the ack
released 41 bytes) while the buffered unacknowledged payload sum is 0, so
the claimed equality bytesInFlight = sum fails on this reachable state. -/
theorem C2_counterexample :
    (receive_ack (some (build_header 4 0 1 400 0)) (1/100)
        (send_window_packets 1 (fun _ => 40) (fun _ => 0)
          (initialSenderState 1 (3/10)))).current_window_usage = -1 ∧
    sumUnacked (receive_ack (some (build_header 4 0 1 400 0)) (1/100)
        (send_window_packets 1 (fun _ => 40) (fun _ => 0)
          (initialSenderState 1 (3/10)))).buffer = 0 ∧
    ((-1 : Int) ≠ 0) := by
  refine ⟨by rfl, by rfl, by decide⟩

/-- receive_ack only ever appends to the RTT sample list. -/
theorem receive_ack_rtt (recvd : Option (List Nat)) (now : ℚ) (s : SenderState) :
    ∃ extra, (receive_ack recvd now s).rtt_list = s.rtt_list ++ extra := by
  match recvd with
  | none => exact ⟨[], by simp [receive_ack]⟩
  | some data =>
    rw [receive_ack]
    split
    · exact ⟨[], by simp⟩
    · match hpc : parse_header_checked data with
      | none => exact ⟨[], by simp⟩
      | some (pt, sq, ak, w, ln) =>
        dsimp only
        by_cases hcond : pt = 4 ∧ 0 < ak
        · rw [if_pos hcond]
          exact ⟨_, (processAck_fields ak now s).2.2.2.2.2⟩
        · rw [if_neg hcond]
          exact ⟨[], by simp⟩

/-- C8 (amended): recordSample appends WITHOUT dropping: receive_ack only
appends newly measured samples to rtt_list and never discards old entries,
so the stored sequence is unbounded rather than capped at 10; the
most-recent-10 restriction lives only inside adjust_timeout, which reads
rtt_list[-10:] and is invariant under dropping all but the last 10
samples. -/
theorem C8_rtt_append_only (recvd : Option (List Nat)) (now : ℚ) (s : SenderState) :
    (receive_ack recvd now s).rtt_list.take s.rtt_list.length = s.rtt_list ∧
    s.rtt_list.length ≤ (receive_ack recvd now s).rtt_list.length ∧
    (∀ (l : List ℚ) (t : ℚ),
      adjust_timeout l t = adjust_timeout (l.drop (l.length - 10)) t) := by
  obtain ⟨extra, hex⟩ := receive_ack_rtt recvd now s
  refine ⟨?_, ?_, ?_⟩
  · rw [hex]
    exact List.take_left _ _
  · rw [hex, List.length_append]
    omega
  · intro l t
    by_cases h : 10 ≤ l.length
    · have h10 : 10 ≤ (l.drop (l.length - 10)).length := by
        rw [List.length_drop]
        omega
      simp only [adjust_timeout, if_pos h, if_pos h10]
      rw [List.length_drop]
      have hz : l.length - (l.length - 10) - 10 = 0 := by omega
      rw [hz, List.drop_zero]
    · have hz : l.length - 10 = 0 := by omega
      simp only [adjust_timeout, hz, List.drop_zero]

/-- Counterexample for C8 as stated: a reachable run in which the stored
sample list exceeds 10 entries.  With target 11 and 40-byte draws the
window fits 10 packets; a cumulative ACK 10 records 10 samples, the
refill sends packet 10, and the next ACK records an 11th sample: the
stored list has length 11 > 10, so the claimed cap does not exist. -/
theorem C8_counterexample :
    ((receive_ack (some (build_header 4 0 11 400 0)) 200
      (send_window_packets 11 (fun _ => 40) (fun i => (100 : ℚ) + i)
        (receive_ack (some (build_header 4 0 10 400 0)) 100
          (send_window_packets 11 (fun _ => 40) (fun i => (i : ℚ))
            (initialSenderState 11 (3/10)))))).rtt_list).length = 11 := by
  rfl

end UdpProto
